import Mathlib

/-!
Shallow embedding of the trigger-svelte event dispatch engine
(`src/trigger-svelte.mjs`): handlers, handler lists with lazy purge/sort
maintenance, the three traversal algorithms (execute / poll / modify) and the
key-indexed dispatcher built on two maps.

Modelling conventions:
* A callback is identified by its owning handler: each handler carries a
  numeric `id`, a dispatch records the handlers it invokes (together with the
  full argument list handed to the callback), and callback return values are
  supplied by environments `Nat → _` where a value is needed.  Callbacks are
  treated as synchronous and without effects on the trigger state itself.
* Bound and dispatch arguments are modelled as `List Int`.
* JavaScript exceptions are modelled by an extra `Bool` component (`true` =
  a `TypeError` was raised); the mutations performed before the throw persist,
  as they do in JavaScript.
-/

namespace TriggerSvelte

/-- `TriggerHandler` state (`trigger-svelte.mjs` lines 45–57): identity of the
registered callback, the bound leading arguments, and the `#once`,
`#priority`, `#cancelled` fields.  The back-reference `#list` is implicit: a
handler is stored inside the list it belongs to. -/
structure TriggerHandler where
  id : Nat
  boundArgs : List Int
  once : Bool
  priority : Int
  cancelled : Bool
deriving DecidableEq, Repr

/-- One callback invocation observed during a dispatch pass: the handler as it
was when invoked, and the full argument list passed to its callback (bound
arguments followed by dispatch arguments; for transform handlers the input
value is prepended). -/
abbrev Invocation := TriggerHandler × List Int

/-- `TriggerHandlerList` state (lines 148–156): the handler sequence, the
`#usesPriorities`, `#needsPriorityUpdate` and `#needsPurge` flags.  `nextId`
is the modelling device producing fresh handler identities (JavaScript object
identity). -/
structure TriggerHandlerList where
  handlers : List TriggerHandler
  usesPriorities : Bool
  needsPriorityUpdate : Bool
  needsPurge : Bool
  nextId : Nat
deriving DecidableEq, Repr

/-- A freshly constructed `TriggerHandlerList` (lines 149–152). -/
def newList : TriggerHandlerList :=
  { handlers := [], usesPriorities := false, needsPriorityUpdate := false,
    needsPurge := false, nextId := 0 }

/-- `queuePriorityUpdate` (lines 208–211): sets `#needsPriorityUpdate` and
marks the list as priority-aware. -/
def queuePriorityUpdate (l : TriggerHandlerList) : TriggerHandlerList :=
  { l with needsPriorityUpdate := true, usesPriorities := true }

/-- `queuePurge` (lines 213–215). -/
def queuePurge (l : TriggerHandlerList) : TriggerHandlerList :=
  { l with needsPurge := true }

/-- `addHandler` (lines 158–166): pushes a fresh active handler at the end of
the sequence, queueing a priority update when the list has ever used
priorities.  Returns the new handler's id. -/
def addHandler (l : TriggerHandlerList) (boundArgs : List Int) :
    TriggerHandlerList × Nat :=
  let h : TriggerHandler :=
    { id := l.nextId, boundArgs := boundArgs, once := false, priority := 0,
      cancelled := false }
  let l1 := { l with handlers := l.handlers ++ [h], nextId := l.nextId + 1 }
  (if l.usesPriorities then queuePriorityUpdate l1 else l1, l.nextId)

/-- `TriggerHandler.cancel` (lines 119–123) applied to the handler with the
given id: sets its `#cancelled` flag and queues a purge on the owning list. -/
def cancelId (l : TriggerHandlerList) (i : Nat) : TriggerHandlerList :=
  queuePurge
    { l with handlers :=
        l.handlers.map fun h =>
          if h.id = i then { h with cancelled := true } else h }

/-- `TriggerHandler.setPriority` (lines 130–134) applied to the handler with
the given id: stores the priority and queues a priority update. -/
def setPriorityId (l : TriggerHandlerList) (i : Nat) (p : Int) :
    TriggerHandlerList :=
  queuePriorityUpdate
    { l with handlers :=
        l.handlers.map fun h =>
          if h.id = i then { h with priority := p } else h }

/-- `TriggerHandler.setOnce` (lines 141–144) applied to the handler with the
given id. -/
def setOnceId (l : TriggerHandlerList) (i : Nat) (b : Bool) :
    TriggerHandlerList :=
  { l with handlers :=
      l.handlers.map fun h =>
        if h.id = i then { h with once := b } else h }

/-- `#purge` (lines 227–233): when `#needsPurge` is set, drop the cancelled
handlers and reset the flag; otherwise do nothing. -/
def purge (l : TriggerHandlerList) : TriggerHandlerList :=
  if l.needsPurge then
    { l with
      handlers := l.handlers.filter (fun h => !h.cancelled),
      needsPurge := false }
  else l

/-- Stable insertion step: place `a` before the first element of no smaller
priority.  Together with `sortHandlers` this computes the unique stable
ascending order, which is what `#handlers.sort((x,y) => x.getPriority() -
y.getPriority())` (line 223) produces, `Array.prototype.sort` being stable. -/
def insertHandler (a : TriggerHandler) : List TriggerHandler → List TriggerHandler
  | [] => [a]
  | b :: rest =>
    if a.priority ≤ b.priority then a :: b :: rest
    else b :: insertHandler a rest

/-- Stable ascending sort by priority (line 223). -/
def sortHandlers : List TriggerHandler → List TriggerHandler
  | [] => []
  | a :: rest => insertHandler a (sortHandlers rest)

/-- `#updatePriorities` (lines 217–225): a no-op unless `#needsPriorityUpdate`
is set; otherwise purge (itself guarded by `#needsPurge`), stable-sort by
ascending priority, and clear the flag. -/
def updatePriorities (l : TriggerHandlerList) : TriggerHandlerList :=
  if l.needsPriorityUpdate then
    let l1 := purge l
    { l1 with
      handlers := sortHandlers l1.handlers,
      needsPriorityUpdate := false }
  else l

/-- The flag-update a traversal pass applies to one handler: an active
once-handler is cancelled by `TriggerHandler.execute`/`modify` (lines 68–73,
84–89) immediately before its callback runs; every other handler is left
unchanged. -/
def passUpdate (h : TriggerHandler) : TriggerHandler :=
  if !h.cancelled && h.once then { h with cancelled := true } else h

/-- The traversal loop shared by `execute` (lines 172–174) and `poll`
(lines 181–183): walk the sequence, skip handlers whose `#cancelled` flag is
set, cancel-then-invoke once-handlers, invoke the rest.  Returns the updated
handler sequence, the invocations in order (handler as it was when invoked,
with argument list `boundArgs ++ args`), and whether some `cancel()` call
queued a purge during the pass. -/
def runPass (args : List Int) :
    List TriggerHandler → List TriggerHandler × List Invocation × Bool
  | [] => ([], [], false)
  | h :: rest =>
    if h.cancelled then
      let (rest1, tr, p) := runPass args rest
      (h :: rest1, tr, p)
    else if h.once then
      let (rest1, tr, _p) := runPass args rest
      ({ h with cancelled := true } :: rest1, (h, h.boundArgs ++ args) :: tr, true)
    else
      let (rest1, tr, p) := runPass args rest
      (h :: rest1, (h, h.boundArgs ++ args) :: tr, p)

/-- `TriggerHandlerList.execute` (lines 168–175): the guarded call to
`#updatePriorities` (the guard is redundant, `#updatePriorities` checks the
same flag itself), then the traversal pass.  Returns the new list state and
the invocations performed. -/
def listExecute (l : TriggerHandlerList) (args : List Int) :
    TriggerHandlerList × List Invocation :=
  let l1 := updatePriorities l
  let (hs, tr, p) := runPass args l1.handlers
  ({ l1 with handlers := hs, needsPurge := l1.needsPurge || p }, tr)

/-- `TriggerHandlerList.poll` (lines 177–188): an unconditional call to
`#updatePriorities` (which is still internally guarded by
`#needsPriorityUpdate`), the traversal pass collecting results, then a
`#purge` (guarded by `#needsPurge`). -/
def listPoll (l : TriggerHandlerList) (args : List Int) :
    TriggerHandlerList × List Invocation :=
  let l1 := updatePriorities l
  let (hs, tr, p) := runPass args l1.handlers
  (purge { l1 with handlers := hs, needsPurge := l1.needsPurge || p }, tr)

/-- The loop of `TriggerHandlerList.modify` (lines 194–199) with its running
`result` slot.  Faithful to line 197, `result = handler.modify(input, args)`:
every invoked handler receives the ORIGINAL `input` (not the running
`result`), and its callback is called with `(input, ...boundArgs, ...args)`,
so the recorded argument list is `input :: (boundArgs ++ args)` and the slot
is overwritten with `env h.id input`. -/
def modifyLoop (env : Nat → Int → Int) (input : Int) (args : List Int) :
    List TriggerHandler → Int → List TriggerHandler × List Invocation × Bool × Int
  | [], result => ([], [], false, result)
  | h :: rest, result =>
    if h.cancelled then
      let (rest1, tr, p, r) := modifyLoop env input args rest result
      (h :: rest1, tr, p, r)
    else if h.once then
      let (rest1, tr, _p, r) := modifyLoop env input args rest (env h.id input)
      ({ h with cancelled := true } :: rest1,
        (h, input :: (h.boundArgs ++ args)) :: tr, true, r)
    else
      let (rest1, tr, p, r) := modifyLoop env input args rest (env h.id input)
      (h :: rest1, (h, input :: (h.boundArgs ++ args)) :: tr, p, r)

/-- `TriggerHandlerList.modify` (lines 190–200): guarded priority update, then
the modify loop starting from `result = input`.  `env` supplies the value each
transform callback returns on the value it received. -/
def listModify (env : Nat → Int → Int) (l : TriggerHandlerList) (input : Int)
    (args : List Int) : TriggerHandlerList × List Invocation × Int :=
  let l1 := updatePriorities l
  let (hs, tr, p, r) := modifyLoop env input args l1.handlers input
  ({ l1 with handlers := hs, needsPurge := l1.needsPurge || p }, tr, r)

/-- `TriggerHandlerList.clear` (lines 202–206): the loop cancels every handler
(each `cancel()` sets `#cancelled` and queues a purge on the list); the final
statement `this.#handlers.clear()` then throws a `TypeError`, because
JavaScript arrays have no `clear` method.  The returned `Bool` is `true` when
a `TypeError` was raised — which is always — and the mutations performed
before the throw persist. -/
def listClear (l : TriggerHandlerList) : TriggerHandlerList × Bool :=
  ({ l with
     handlers := l.handlers.map (fun h => { h with cancelled := true }),
     needsPurge := l.needsPurge || !l.handlers.isEmpty },
   true)

/-- The dispatch operations of the public surface, directed at one handler
list.  The modify environment is irrelevant to list state and invocation
trace (it only shapes the returned value), so `runDispatch` fixes it. -/
inductive Dispatch
  | dExec (args : List Int)
  | dPoll (args : List Int)
  | dModify (input : Int) (args : List Int)
deriving DecidableEq, Repr

/-- One dispatch against a handler list: the new state and the invocations. -/
def runDispatch (l : TriggerHandlerList) : Dispatch → TriggerHandlerList × List Invocation
  | .dExec args => listExecute l args
  | .dPoll args => listPoll l args
  | .dModify input args =>
    let (l1, tr, _r) := listModify (fun _ v => v) l input args
    (l1, tr)

/-- A sequence of dispatches against a handler list, concatenating the
invocation traces in order. -/
def runDispatches (l : TriggerHandlerList) : List Dispatch → TriggerHandlerList × List Invocation
  | [] => (l, [])
  | d :: ds =>
    let (l1, tr1) := runDispatch l d
    let (l2, tr2) := runDispatches l1 ds
    (l2, tr1 ++ tr2)

/-- All list operations, for invariant preservation statements. -/
inductive ListOp
  | addOp (boundArgs : List Int)
  | cancelOp (i : Nat)
  | setPriorityOp (i : Nat) (p : Int)
  | setOnceOp (i : Nat) (b : Bool)
  | clearOp
  | execOp (args : List Int)
  | pollOp (args : List Int)
  | modOp (input : Int) (args : List Int)
deriving DecidableEq, Repr

/-- Apply one list operation (state component only; the modify environment
does not influence the state). -/
def applyListOp : ListOp → TriggerHandlerList → TriggerHandlerList
  | .addOp b, l => (addHandler l b).1
  | .cancelOp i, l => cancelId l i
  | .setPriorityOp i p, l => setPriorityId l i p
  | .setOnceOp i b, l => setOnceId l i b
  | .clearOp, l => (listClear l).1
  | .execOp a, l => (listExecute l a).1
  | .pollOp a, l => (listPoll l a).1
  | .modOp v a, l => (listModify (fun _ x => x) l v a).1

/-- Number of invocations of the handler with id `i` in a trace. -/
def countInv (i : Nat) (tr : List Invocation) : Nat :=
  tr.countP (fun e => e.1.id == i)

/-- Priority of the handler with id `i`, when present (via `find?`, matching
the fact that our lists keep at most one handler per id in the scenarios). -/
def findPriority (l : TriggerHandlerList) (i : Nat) : Option Int :=
  (l.handlers.find? (fun h => h.id == i)).map TriggerHandler.priority

/-- `hs.filter (id = i)` is a single active once-flagged handler: there is
exactly one handler carrying id `i`, and it is active with the once-flag
set. -/
def uniqueActiveOnce (i : Nat) (hs : List TriggerHandler) : Bool :=
  match hs.filter (fun h => h.id == i) with
  | [h] => !h.cancelled && h.once
  | _ => false

/-- The implicit purge invariant: whenever `#needsPurge` is clear, the handler
sequence holds no cancelled handler. -/
def invPurge (l : TriggerHandlerList) : Bool :=
  l.needsPurge || l.handlers.all (fun h => !h.cancelled)

/-- Ascending Int sequence test. -/
def sortedInts : List Int → Bool
  | [] => true
  | [_] => true
  | a :: b :: rest => decide (a ≤ b) && sortedInts (b :: rest)

/-- The priorities of a handler sequence, in order. -/
def prioritiesOf (hs : List TriggerHandler) : List Int :=
  hs.map TriggerHandler.priority

/-- The implicit ordering invariant of reachable lists: while the list has
never used priorities every handler still has the default priority 0, and
whenever `#needsPriorityUpdate` is clear the sequence is sorted ascending by
priority. -/
def orderInv (l : TriggerHandlerList) : Bool :=
  (l.usesPriorities || l.handlers.all (fun h => h.priority == 0)) &&
  (l.needsPriorityUpdate || sortedInts (prioritiesOf l.handlers))

/-- The resort operation as the specification words it: "purge (filter out
cancelled handlers [when needs-purge is set]), then stable-sort remaining by
ascending priority, then clear the stale flag" — with no check of the
needs-priority-update bit.  Compared against `updatePriorities`, which the
code guards by that bit. -/
def specResort (l : TriggerHandlerList) : TriggerHandlerList :=
  let l1 := purge l
  { l1 with
    handlers := sortHandlers l1.handlers,
    needsPriorityUpdate := false }

/-- The dispatcher state (lines 237–240): the two independent key→list maps,
`handlers` for broadcast handlers and `modifiers` for transform handlers.
Keys are modelled as `Nat`. -/
structure TriggerState where
  handlers : Nat → Option TriggerHandlerList
  modifiers : Nat → Option TriggerHandlerList

/-- The initial dispatcher state: both maps empty. -/
def emptyTriggerState : TriggerState :=
  { handlers := fun _ => none, modifiers := fun _ => none }

/-- `Map.set` on a key→list map. -/
def setMap (m : Nat → Option TriggerHandlerList) (k : Nat)
    (v : Option TriggerHandlerList) : Nat → Option TriggerHandlerList :=
  fun q => if q = k then v else m q

/-- `createHandler(handlers, trigger, ...)` (lines 243–261, 386–388): find or
create the broadcast list for the key and append a handler; returns the new
handler's id. -/
def registerBroadcast (s : TriggerState) (k : Nat) (boundArgs : List Int) :
    TriggerState × Nat :=
  let l := (s.handlers k).getD newList
  let (l1, i) := addHandler l boundArgs
  ({ s with handlers := setMap s.handlers k (some l1) }, i)

/-- `createHandler(modifiers, trigger, ...)` (lines 243–261, 397–399). -/
def registerTransform (s : TriggerState) (k : Nat) (boundArgs : List Int) :
    TriggerState × Nat :=
  let l := (s.modifiers k).getD newList
  let (l1, i) := addHandler l boundArgs
  ({ s with modifiers := setMap s.modifiers k (some l1) }, i)

/-- `.setPriority(p)` on the handler registered under `k` in the broadcast
map with id `i`. -/
def setPriorityBroadcast (s : TriggerState) (k : Nat) (i : Nat) (p : Int) :
    TriggerState :=
  match s.handlers k with
  | none => s
  | some l => { s with handlers := setMap s.handlers k (some (setPriorityId l i p)) }

/-- `Trigger.execute` (lines 322–324): look up the broadcast list without
creating (`getHandlerList(handlers, trigger)?.execute(args)`); a missing list
is a no-op. -/
def executeTrigger (s : TriggerState) (k : Nat) (args : List Int) :
    TriggerState × List Invocation :=
  match s.handlers k with
  | none => (s, [])
  | some l =>
    let (l1, tr) := listExecute l args
    ({ s with handlers := setMap s.handlers k (some l1) }, tr)

/-- `Trigger.poll` (lines 333–335): `getHandlerList(handlers,
trigger)?.poll(args) ?? []`. -/
def pollTrigger (s : TriggerState) (k : Nat) (args : List Int) :
    TriggerState × List Invocation :=
  match s.handlers k with
  | none => (s, [])
  | some l =>
    let (l1, tr) := listPoll l args
    ({ s with handlers := setMap s.handlers k (some l1) }, tr)

/-- `Trigger.modify` (lines 346–348): `getHandlerList(modifiers,
trigger)?.modify(input, args) ?? input`. -/
def modifyTrigger (env : Nat → Int → Int) (s : TriggerState) (input : Int)
    (k : Nat) (args : List Int) : TriggerState × Int :=
  match s.modifiers k with
  | none => (s, input)
  | some l =>
    let (l1, _tr, r) := listModify env l input args
    ({ s with modifiers := setMap s.modifiers k (some l1) }, r)

/-- `Trigger.clearTrigger` (lines 438–444).  `getHandlerList(handlers,
trigger, false)` returns `null` when no list exists, so `.clear()` throws a
`TypeError` at once with no state change; when the list exists,
`list.clear()` itself throws after cancelling every handler (see
`listClear`).  Either way the exception propagates before `handlers.delete`
runs, so neither map entry is removed and the `modifiers` list is never even
looked up.  The `Bool` is `true` when a `TypeError` was raised. -/
def clearTrigger (s : TriggerState) (k : Nat) : TriggerState × Bool :=
  match s.handlers k with
  | none => (s, true)
  | some l =>
    let (l1, _raised) := listClear l
    ({ s with handlers := setMap s.handlers k (some l1) }, true)

/-- The `Trigger` object called as a function (lines 309–311): the wrapper
body runs `Trigger.execute(trigger, ...args)` and returns nothing, exactly
as `Trigger.execute` itself does. -/
def triggerAsFunction (s : TriggerState) (k : Nat) (args : List Int) :
    TriggerState × List Invocation :=
  executeTrigger s k args

/-! Micro-model of the `#callback` field default (lines 3–4, 45–57, 68–73).
Only the values relevant to the defaulting path are modelled: a JavaScript
function value, or `undefined`. -/

/-- A JavaScript value that may sit in the `#callback` field: a function, or
`undefined`. -/
inductive CallbackValue
  | undefVal
  | fnVal
deriving DecidableEq, Repr

/-- `const doNothing = () => {}` (line 4): a function value whose body
returns `undefined`. -/
def doNothing : CallbackValue := .fnVal

/-- Calling a value: calling `doNothing` returns `undefined` (its body is
empty); calling `undefined` throws a `TypeError`. -/
def jsCall : CallbackValue → Except Unit CallbackValue
  | .fnVal => .ok .undefVal
  | .undefVal => .error ()

/-- The field initializer `#callback = doNothing()` (line 49): it CALLS
`doNothing`, so the field holds the call's return value `undefined` — not
the function itself. -/
def callbackFieldInit : CallbackValue :=
  match jsCall doNothing with
  | .ok v => v
  | .error _ => .undefVal

/-- `constructor(list, callback = this.#callback, ...)` (line 53): an omitted
`callback` argument defaults to the field's initial value. -/
def constructedCallback (callback : Option CallbackValue) : CallbackValue :=
  callback.getD callbackFieldInit

/-- `TriggerHandler.execute` (lines 68–73) reduced to its callback call
`this.#callback(...)`: invoking the handler calls whatever value the field
holds. -/
def invokeConstructed (callback : Option CallbackValue) : Except Unit CallbackValue :=
  jsCall (constructedCallback callback)

/-- Every handler carrying id `i` in the sequence is cancelled (so `i` can
never be invoked again). -/
def NoActive (i : Nat) (hs : List TriggerHandler) : Prop :=
  ∀ h ∈ hs, h.id = i → h.cancelled = true

/-- Proposition form of `uniqueActiveOnce`: exactly one handler carries id
`i`, and it is active with the once-flag set. -/
def OneActiveOnce (i : Nat) (hs : List TriggerHandler) : Prop :=
  ∃ h, hs.filter (fun x => x.id == i) = [h] ∧ h.cancelled = false ∧ h.once = true

/-- `.cancel()` on the handler with id `i` registered under key `k` in the
broadcast map. -/
def cancelBroadcast (s : TriggerState) (k : Nat) (i : Nat) : TriggerState :=
  match s.handlers k with
  | none => s
  | some l => { s with handlers := setMap s.handlers k (some (cancelId l i)) }

/-! ### Concrete scenario states -/

/-- Two transform handlers registered on key 0 (ids 0 and 1). -/
def twoDoublersState : TriggerState :=
  (registerTransform (registerTransform emptyTriggerState 0 []).1 0 []).1

/-- Environment where every transform callback doubles its input. -/
def doubleEnv : Nat → Int → Int := fun _ v => 2 * v

/-- One broadcast handler registered on key 0. -/
def oneBroadcastState : TriggerState :=
  (registerBroadcast emptyTriggerState 0 []).1

/-- Priority scenario: three broadcast handlers on key 0 — h1 = id 0
(priority 5), h2 = id 1 (priority 1), h3 = id 2 (priority 5), registered in
that order. -/
def priorityScenarioState : TriggerState :=
  setPriorityBroadcast
    (setPriorityBroadcast
      (setPriorityBroadcast
        (registerBroadcast
          (registerBroadcast (registerBroadcast emptyTriggerState 0 []).1 0 []).1
          0 []).1
        0 0 5)
      0 1 1)
    0 2 5

/-- Return values for the priority scenario: handler 0 returns "A", handler 1
returns "B", handler 2 returns "C". -/
def abcEnv : Nat → String :=
  fun i => if i = 0 then "A" else if i = 1 then "B" else "C"

/-- Two handlers registered (ids 0 then 1) with priorities 2 and 1. -/
def twoTierList : TriggerHandlerList :=
  setPriorityId (setPriorityId (addHandler (addHandler newList []).1 []).1 0 2) 1 1

/-- `twoTierList` after one dispatch (which sorts to [id 1, id 0]) followed
by re-prioritizing handler 0 from 2 down to 1, so both handlers now have
priority 1. -/
def retieredList : TriggerHandlerList :=
  setPriorityId (listExecute twoTierList []).1 0 1

/-- One handler registered and then cancelled: its list has `#needsPurge` set,
`#needsPriorityUpdate` clear, and the cancelled handler still in the
sequence. -/
def cancelledOneList : TriggerHandlerList :=
  cancelId (addHandler newList []).1 0

/-- One handler registered and flagged once. -/
def onceOneList : TriggerHandlerList :=
  setOnceId (addHandler newList []).1 0 true

/-- A state whose key 0 carries a registered-then-cancelled broadcast handler
and a registered-then-cancelled transform handler. -/
def cancelledBothState : TriggerState :=
  { handlers := setMap emptyTriggerState.handlers 0 (some cancelledOneList),
    modifiers := setMap emptyTriggerState.modifiers 0 (some cancelledOneList) }

/-! ### Characterization of the traversal loops -/

theorem runPass_handlers (args : List Int) (hs : List TriggerHandler) :
    (runPass args hs).1 = hs.map passUpdate := by
  induction hs with
  | nil => simp [runPass]
  | cons h t ih =>
    by_cases hc : h.cancelled = true
    · simp [runPass, passUpdate, hc, ih]
    · simp only [Bool.not_eq_true] at hc
      by_cases ho : h.once = true
      · simp [runPass, passUpdate, hc, ho, ih]
      · simp only [Bool.not_eq_true] at ho
        simp [runPass, passUpdate, hc, ho, ih]

theorem runPass_trace (args : List Int) (hs : List TriggerHandler) :
    (runPass args hs).2.1 =
      (hs.filter (fun h => !h.cancelled)).map (fun h => (h, h.boundArgs ++ args)) := by
  induction hs with
  | nil => simp [runPass]
  | cons h t ih =>
    by_cases hc : h.cancelled = true
    · simp [runPass, hc, ih]
    · simp only [Bool.not_eq_true] at hc
      by_cases ho : h.once = true
      · simp [runPass, hc, ho, ih]
      · simp only [Bool.not_eq_true] at ho
        simp [runPass, hc, ho, ih]

theorem runPass_flag (args : List Int) (hs : List TriggerHandler) :
    (runPass args hs).2.2 = hs.any (fun h => !h.cancelled && h.once) := by
  induction hs with
  | nil => simp [runPass]
  | cons h t ih =>
    by_cases hc : h.cancelled = true
    · simp [runPass, hc, ih]
    · simp only [Bool.not_eq_true] at hc
      by_cases ho : h.once = true
      · simp [runPass, hc, ho, ih]
      · simp only [Bool.not_eq_true] at ho
        simp [runPass, hc, ho, ih]

theorem modifyLoop_handlers (env : Nat → Int → Int) (input : Int)
    (args : List Int) (hs : List TriggerHandler) (r : Int) :
    (modifyLoop env input args hs r).1 = hs.map passUpdate := by
  induction hs generalizing r with
  | nil => simp [modifyLoop]
  | cons h t ih =>
    by_cases hc : h.cancelled = true
    · simp [modifyLoop, passUpdate, hc, ih]
    · simp only [Bool.not_eq_true] at hc
      by_cases ho : h.once = true
      · simp [modifyLoop, passUpdate, hc, ho, ih]
      · simp only [Bool.not_eq_true] at ho
        simp [modifyLoop, passUpdate, hc, ho, ih]

theorem modifyLoop_trace (env : Nat → Int → Int) (input : Int)
    (args : List Int) (hs : List TriggerHandler) (r : Int) :
    (modifyLoop env input args hs r).2.1 =
      (hs.filter (fun h => !h.cancelled)).map
        (fun h => (h, input :: (h.boundArgs ++ args))) := by
  induction hs generalizing r with
  | nil => simp [modifyLoop]
  | cons h t ih =>
    by_cases hc : h.cancelled = true
    · simp [modifyLoop, hc, ih]
    · simp only [Bool.not_eq_true] at hc
      by_cases ho : h.once = true
      · simp [modifyLoop, hc, ho, ih]
      · simp only [Bool.not_eq_true] at ho
        simp [modifyLoop, hc, ho, ih]

theorem modifyLoop_flag (env : Nat → Int → Int) (input : Int)
    (args : List Int) (hs : List TriggerHandler) (r : Int) :
    (modifyLoop env input args hs r).2.2.1 =
      hs.any (fun h => !h.cancelled && h.once) := by
  induction hs generalizing r with
  | nil => simp [modifyLoop]
  | cons h t ih =>
    by_cases hc : h.cancelled = true
    · simp [modifyLoop, hc, ih]
    · simp only [Bool.not_eq_true] at hc
      by_cases ho : h.once = true
      · simp [modifyLoop, hc, ho, ih]
      · simp only [Bool.not_eq_true] at ho
        simp [modifyLoop, hc, ho, ih]

theorem modifyLoop_value (env : Nat → Int → Int) (input : Int)
    (args : List Int) (hs : List TriggerHandler) (r : Int) :
    (modifyLoop env input args hs r).2.2.2 =
      (hs.filter (fun h => !h.cancelled)).foldl (fun _ h => env h.id input) r := by
  induction hs generalizing r with
  | nil => simp [modifyLoop]
  | cons h t ih =>
    by_cases hc : h.cancelled = true
    · simp [modifyLoop, hc, ih]
    · simp only [Bool.not_eq_true] at hc
      by_cases ho : h.once = true
      · simp [modifyLoop, hc, ho, ih]
      · simp only [Bool.not_eq_true] at ho
        simp [modifyLoop, hc, ho, ih]

/-! ### The stable sort -/

theorem insertHandler_perm (a : TriggerHandler) (s : List TriggerHandler) :
    (insertHandler a s).Perm (a :: s) := by
  induction s with
  | nil => simp [insertHandler]
  | cons b t ih =>
    by_cases hp : a.priority ≤ b.priority
    · simp [insertHandler, hp]
    · simp only [insertHandler, hp, if_false]
      exact (ih.cons b).trans (List.Perm.swap a b t)

theorem sortHandlers_perm (hs : List TriggerHandler) :
    (sortHandlers hs).Perm hs := by
  induction hs with
  | nil => simp [sortHandlers]
  | cons a t ih =>
    exact (insertHandler_perm a (sortHandlers t)).trans (ih.cons a)

theorem insertHandler_pairwise (a : TriggerHandler) (s : List TriggerHandler)
    (hsorted : s.Pairwise (fun x y => x.priority ≤ y.priority)) :
    (insertHandler a s).Pairwise (fun x y => x.priority ≤ y.priority) := by
  induction s with
  | nil => simp [insertHandler]
  | cons b t ih =>
    rcases List.pairwise_cons.1 hsorted with ⟨hb, ht⟩
    by_cases hp : a.priority ≤ b.priority
    · rw [insertHandler, if_pos hp]
      refine List.pairwise_cons.2 ⟨?_, hsorted⟩
      intro x hx
      rcases List.mem_cons.1 hx with rfl | hx2
      · exact hp
      · exact le_trans hp (hb x hx2)
    · rw [insertHandler, if_neg hp]
      refine List.pairwise_cons.2 ⟨?_, ih ht⟩
      intro x hx
      rcases List.mem_cons.1 ((insertHandler_perm a t).mem_iff.1 hx) with rfl | hx2
      · exact le_of_lt (lt_of_not_le hp)
      · exact hb x hx2

theorem sortHandlers_pairwise (hs : List TriggerHandler) :
    (sortHandlers hs).Pairwise (fun x y => x.priority ≤ y.priority) := by
  induction hs with
  | nil => simp [sortHandlers]
  | cons a t ih => exact insertHandler_pairwise a (sortHandlers t) ih

theorem insertHandler_filter (a : TriggerHandler) (s : List TriggerHandler)
    (q : Int) :
    (insertHandler a s).filter (fun h => h.priority == q) =
      if a.priority = q then a :: s.filter (fun h => h.priority == q)
      else s.filter (fun h => h.priority == q) := by
  induction s with
  | nil =>
    by_cases hq : a.priority = q
    · simp [insertHandler, hq]
    · simp [insertHandler, hq]
  | cons b t ih =>
    by_cases hp : a.priority ≤ b.priority
    · rw [insertHandler, if_pos hp]
      by_cases hq : a.priority = q
      · simp [List.filter_cons, hq]
      · simp [List.filter_cons, hq]
    · rw [insertHandler, if_neg hp]
      have hba : b.priority < a.priority := lt_of_not_le hp
      by_cases hq : a.priority = q
      · have hbq : ¬(b.priority = q) := by
          intro hbq
          rw [hbq, ← hq] at hba
          exact lt_irrefl _ hba
        simp [List.filter_cons, hbq, ih, hq]
      · by_cases hbq : b.priority = q
        · simp [List.filter_cons, hbq, ih, hq]
        · simp [List.filter_cons, hbq, ih, hq]

/-- Stability of the sort: restricted to any one priority value, sorting
reorders nothing. -/
theorem sortHandlers_filter (hs : List TriggerHandler) (q : Int) :
    (sortHandlers hs).filter (fun h => h.priority == q) =
      hs.filter (fun h => h.priority == q) := by
  induction hs with
  | nil => simp [sortHandlers]
  | cons a t ih =>
    by_cases hq : a.priority = q
    · simp [sortHandlers, insertHandler_filter, hq, ih, List.filter_cons]
    · simp [sortHandlers, insertHandler_filter, hq, ih, List.filter_cons]

/-! ### Ascending sequences -/

theorem sortedInts_iff (xs : List Int) :
    sortedInts xs = true ↔ xs.Pairwise (· ≤ ·) := by
  induction xs with
  | nil => simp [sortedInts]
  | cons a t ih =>
    cases t with
    | nil => simp [sortedInts]
    | cons b r =>
      constructor
      · intro hsort
        simp only [sortedInts, Bool.and_eq_true, decide_eq_true_eq] at hsort
        have hrest := ih.1 hsort.2
        rcases List.pairwise_cons.1 hrest with ⟨hb, hr⟩
        refine List.pairwise_cons.2 ⟨?_, hrest⟩
        intro x hx
        rcases List.mem_cons.1 hx with rfl | hx2
        · exact hsort.1
        · exact le_trans hsort.1 (hb x hx2)
      · intro hpw
        rcases List.pairwise_cons.1 hpw with ⟨hb, hrest⟩
        simp only [sortedInts, Bool.and_eq_true, decide_eq_true_eq]
        exact ⟨hb b (by simp), ih.2 hrest⟩

/-! ### Projections of the three dispatch operations -/

theorem listExecute_snd (l : TriggerHandlerList) (args : List Int) :
    (listExecute l args).2 = (runPass args (updatePriorities l).handlers).2.1 := rfl

theorem listExecute_fst_handlers (l : TriggerHandlerList) (args : List Int) :
    (listExecute l args).1.handlers = (runPass args (updatePriorities l).handlers).1 := rfl

theorem listExecute_fst_needsPurge (l : TriggerHandlerList) (args : List Int) :
    (listExecute l args).1.needsPurge =
      ((updatePriorities l).needsPurge || (runPass args (updatePriorities l).handlers).2.2) := rfl

theorem listPoll_snd (l : TriggerHandlerList) (args : List Int) :
    (listPoll l args).2 = (runPass args (updatePriorities l).handlers).2.1 := rfl

theorem listPoll_fst (l : TriggerHandlerList) (args : List Int) :
    (listPoll l args).1 = purge (listExecute l args).1 := rfl

theorem listModify_trace (env : Nat → Int → Int) (l : TriggerHandlerList)
    (input : Int) (args : List Int) :
    (listModify env l input args).2.1 =
      (modifyLoop env input args (updatePriorities l).handlers input).2.1 := rfl

theorem listModify_fst_handlers (env : Nat → Int → Int) (l : TriggerHandlerList)
    (input : Int) (args : List Int) :
    (listModify env l input args).1.handlers =
      (modifyLoop env input args (updatePriorities l).handlers input).1 := rfl

theorem listModify_fst_needsPurge (env : Nat → Int → Int) (l : TriggerHandlerList)
    (input : Int) (args : List Int) :
    (listModify env l input args).1.needsPurge =
      ((updatePriorities l).needsPurge
        || (modifyLoop env input args (updatePriorities l).handlers input).2.2.1) := rfl

theorem listModify_value (env : Nat → Int → Int) (l : TriggerHandlerList)
    (input : Int) (args : List Int) :
    (listModify env l input args).2.2 =
      ((updatePriorities l).handlers.filter (fun h => !h.cancelled)).foldl
        (fun _ h => env h.id input) input := by
  show (modifyLoop env input args (updatePriorities l).handlers input).2.2.2 = _
  exact modifyLoop_value env input args (updatePriorities l).handlers input

/-! ### passUpdate facts -/

theorem passUpdate_id (h : TriggerHandler) : (passUpdate h).id = h.id := by
  unfold passUpdate; split <;> rfl

theorem passUpdate_priority (h : TriggerHandler) :
    (passUpdate h).priority = h.priority := by
  unfold passUpdate; split <;> rfl

theorem passUpdate_of_cancelled {h : TriggerHandler} (hc : h.cancelled = true) :
    passUpdate h = h := by
  unfold passUpdate
  simp [hc]

/-! ### Membership through maintenance steps -/

theorem mem_purge {l : TriggerHandlerList} {h : TriggerHandler}
    (hm : h ∈ (purge l).handlers) : h ∈ l.handlers := by
  unfold purge at hm
  by_cases hp : l.needsPurge = true
  · simp only [hp, if_true] at hm
    exact (List.mem_filter.1 hm).1
  · simp only [Bool.not_eq_true] at hp
    simp only [hp] at hm
    simpa using hm

theorem mem_updatePriorities {l : TriggerHandlerList} {h : TriggerHandler}
    (hm : h ∈ (updatePriorities l).handlers) : h ∈ l.handlers := by
  unfold updatePriorities at hm
  by_cases hb : l.needsPriorityUpdate = true
  · simp only [hb, if_true] at hm
    exact mem_purge ((sortHandlers_perm (purge l).handlers).mem_iff.1 hm)
  · simp only [Bool.not_eq_true] at hb
    simp only [hb] at hm
    simpa using hm

/-! ### NoActive preservation -/

theorem noActive_of_subset {i : Nat} {hs1 hs2 : List TriggerHandler}
    (hsub : ∀ h, h ∈ hs1 → h ∈ hs2) (hna : NoActive i hs2) : NoActive i hs1 :=
  fun h hm hid => hna h (hsub h hm) hid

theorem noActive_updatePriorities {i : Nat} {l : TriggerHandlerList}
    (hna : NoActive i l.handlers) : NoActive i (updatePriorities l).handlers :=
  noActive_of_subset (fun _ hm => mem_updatePriorities hm) hna

theorem noActive_purge {i : Nat} {l : TriggerHandlerList}
    (hna : NoActive i l.handlers) : NoActive i (purge l).handlers :=
  noActive_of_subset (fun _ hm => mem_purge hm) hna

theorem noActive_passUpdate {i : Nat} {hs : List TriggerHandler}
    (hna : NoActive i hs) : NoActive i (hs.map passUpdate) := by
  intro h hm hid
  rcases List.mem_map.1 hm with ⟨g, hg, rfl⟩
  rw [passUpdate_id] at hid
  have hc := hna g hg hid
  rw [passUpdate_of_cancelled hc]
  exact hc

theorem noActive_cancelId (l : TriggerHandlerList) (i : Nat) :
    NoActive i (cancelId l i).handlers := by
  intro h hm hid
  rcases List.mem_map.1 hm with ⟨g, hg, rfl⟩
  by_cases hgi : g.id = i
  · simp [hgi]
  · simp [hgi] at hid

/-! ### Invocation counts in a pass trace -/

theorem countInv_map (i : Nat) (hs : List TriggerHandler)
    (f : TriggerHandler → List Int) :
    countInv i (hs.map (fun h => (h, f h))) = hs.countP (fun h => h.id == i) := by
  unfold countInv
  rw [List.countP_map]
  rfl

theorem filter_active_id (i : Nat) (hs : List TriggerHandler) :
    (hs.filter (fun h => !h.cancelled)).filter (fun h => h.id == i)
      = (hs.filter (fun h => h.id == i)).filter (fun h => !h.cancelled) := by
  rw [List.filter_filter, List.filter_filter]
  exact List.filter_congr (fun a _ => Bool.and_comm _ _)

theorem countP_active_of_noActive {i : Nat} {hs : List TriggerHandler}
    (hna : NoActive i hs) :
    (hs.filter (fun h => !h.cancelled)).countP (fun h => h.id == i) = 0 := by
  rw [List.countP_eq_zero]
  intro a ha
  rcases List.mem_filter.1 ha with ⟨ham, hact⟩
  intro haid
  have : a.id = i := by simpa using haid
  have hc := hna a ham this
  rw [hc] at hact
  simp at hact

theorem countP_active_of_oneActiveOnce {i : Nat} {hs : List TriggerHandler}
    (h1 : OneActiveOnce i hs) :
    (hs.filter (fun h => !h.cancelled)).countP (fun h => h.id == i) = 1 := by
  rcases h1 with ⟨h, hf, hc, _⟩
  rw [List.countP_eq_length_filter, filter_active_id, hf]
  simp [hc]

/-! ### OneActiveOnce preservation up to the pass -/

theorem oneActiveOnce_purge {i : Nat} {l : TriggerHandlerList}
    (h1 : OneActiveOnce i l.handlers) : OneActiveOnce i (purge l).handlers := by
  rcases h1 with ⟨h, hf, hc, ho⟩
  unfold purge
  by_cases hp : l.needsPurge = true
  · refine ⟨h, ?_, hc, ho⟩
    simp only [hp, if_true]
    rw [filter_active_id, hf]
    simp [hc]
  · simp only [Bool.not_eq_true] at hp
    simp only [hp]
    exact ⟨h, by simpa using hf, hc, ho⟩

theorem oneActiveOnce_sort {i : Nat} {hs : List TriggerHandler}
    (h1 : OneActiveOnce i hs) : OneActiveOnce i (sortHandlers hs) := by
  rcases h1 with ⟨h, hf, hc, ho⟩
  refine ⟨h, ?_, hc, ho⟩
  have hperm := (sortHandlers_perm hs).filter (fun x => x.id == i)
  rw [hf] at hperm
  exact List.perm_singleton.1 hperm

theorem oneActiveOnce_updatePriorities {i : Nat} {l : TriggerHandlerList}
    (h1 : OneActiveOnce i l.handlers) :
    OneActiveOnce i (updatePriorities l).handlers := by
  unfold updatePriorities
  by_cases hb : l.needsPriorityUpdate = true
  · simp only [hb, if_true]
    exact oneActiveOnce_sort (oneActiveOnce_purge h1)
  · simp only [Bool.not_eq_true] at hb
    simp only [hb]
    simpa using h1

theorem noActive_passUpdate_of_oneActiveOnce {i : Nat} {hs : List TriggerHandler}
    (h1 : OneActiveOnce i hs) : NoActive i (hs.map passUpdate) := by
  rcases h1 with ⟨h, hf, hc, ho⟩
  intro h2 hm hid
  rcases List.mem_map.1 hm with ⟨g, hg, rfl⟩
  rw [passUpdate_id] at hid
  have hgf : g ∈ hs.filter (fun x => x.id == i) :=
    List.mem_filter.2 ⟨hg, by simp [hid]⟩
  rw [hf] at hgf
  have hgh : g = h := by simpa using hgf
  subst hgh
  unfold passUpdate
  simp [hc, ho]

/-! ### Dispatch step lemmas -/

theorem runDispatch_noActive {i : Nat} {l : TriggerHandlerList} (d : Dispatch)
    (hna : NoActive i l.handlers) :
    countInv i (runDispatch l d).2 = 0 ∧ NoActive i (runDispatch l d).1.handlers := by
  have hup := noActive_updatePriorities hna
  cases d with
  | dExec args =>
    constructor
    · rw [runDispatch, listExecute_snd, runPass_trace, countInv_map]
      exact countP_active_of_noActive hup
    · rw [runDispatch, listExecute_fst_handlers, runPass_handlers]
      exact noActive_passUpdate hup
  | dPoll args =>
    constructor
    · rw [runDispatch, listPoll_snd, runPass_trace, countInv_map]
      exact countP_active_of_noActive hup
    · rw [runDispatch, listPoll_fst]
      refine noActive_purge ?_
      rw [listExecute_fst_handlers, runPass_handlers]
      exact noActive_passUpdate hup
  | dModify input args =>
    constructor
    · show countInv i (listModify (fun _ v => v) l input args).2.1 = 0
      rw [listModify_trace, modifyLoop_trace, countInv_map]
      exact countP_active_of_noActive hup
    · show NoActive i (listModify (fun _ v => v) l input args).1.handlers
      rw [listModify_fst_handlers, modifyLoop_handlers]
      exact noActive_passUpdate hup

theorem runDispatch_oneActiveOnce {i : Nat} {l : TriggerHandlerList} (d : Dispatch)
    (h1 : OneActiveOnce i l.handlers) :
    countInv i (runDispatch l d).2 = 1 ∧ NoActive i (runDispatch l d).1.handlers := by
  have hup := oneActiveOnce_updatePriorities h1
  cases d with
  | dExec args =>
    constructor
    · rw [runDispatch, listExecute_snd, runPass_trace, countInv_map]
      exact countP_active_of_oneActiveOnce hup
    · rw [runDispatch, listExecute_fst_handlers, runPass_handlers]
      exact noActive_passUpdate_of_oneActiveOnce hup
  | dPoll args =>
    constructor
    · rw [runDispatch, listPoll_snd, runPass_trace, countInv_map]
      exact countP_active_of_oneActiveOnce hup
    · rw [runDispatch, listPoll_fst]
      refine noActive_purge ?_
      rw [listExecute_fst_handlers, runPass_handlers]
      exact noActive_passUpdate_of_oneActiveOnce hup
  | dModify input args =>
    constructor
    · show countInv i (listModify (fun _ v => v) l input args).2.1 = 1
      rw [listModify_trace, modifyLoop_trace, countInv_map]
      exact countP_active_of_oneActiveOnce hup
    · show NoActive i (listModify (fun _ v => v) l input args).1.handlers
      rw [listModify_fst_handlers, modifyLoop_handlers]
      exact noActive_passUpdate_of_oneActiveOnce hup

theorem countInv_append (i : Nat) (a b : List Invocation) :
    countInv i (a ++ b) = countInv i a + countInv i b := by
  unfold countInv
  exact List.countP_append _ _ _

theorem runDispatches_noActive {i : Nat} {l : TriggerHandlerList}
    (ds : List Dispatch) (hna : NoActive i l.handlers) :
    countInv i (runDispatches l ds).2 = 0
      ∧ NoActive i (runDispatches l ds).1.handlers := by
  induction ds generalizing l with
  | nil => exact ⟨rfl, hna⟩
  | cons d ds ih =>
    have hstep := runDispatch_noActive d hna
    have hrest := ih hstep.2
    constructor
    · show countInv i ((runDispatch l d).2 ++ (runDispatches (runDispatch l d).1 ds).2) = 0
      rw [countInv_append, hstep.1, hrest.1]
    · exact hrest.2

/-! ### Structure forms of the dispatch post-states -/

theorem listExecute_fst (l : TriggerHandlerList) (args : List Int) :
    (listExecute l args).1 =
      { updatePriorities l with
        handlers := (updatePriorities l).handlers.map passUpdate,
        needsPurge := (updatePriorities l).needsPurge
          || (updatePriorities l).handlers.any (fun h => !h.cancelled && h.once) } := by
  show { updatePriorities l with
         handlers := (runPass args (updatePriorities l).handlers).1,
         needsPurge := (updatePriorities l).needsPurge
           || (runPass args (updatePriorities l).handlers).2.2 } = _
  rw [runPass_handlers, runPass_flag]

theorem listModify_fst (env : Nat → Int → Int) (l : TriggerHandlerList)
    (input : Int) (args : List Int) :
    (listModify env l input args).1 = (listExecute l args).1 := by
  show { updatePriorities l with
         handlers := (modifyLoop env input args (updatePriorities l).handlers input).1,
         needsPurge := (updatePriorities l).needsPurge
           || (modifyLoop env input args (updatePriorities l).handlers input).2.2.1 } = _
  rw [modifyLoop_handlers, modifyLoop_flag, listExecute_fst]

/-! ### The purge invariant -/

theorem invPurge_iff (l : TriggerHandlerList) :
    invPurge l = true ↔
      (l.needsPurge = true ∨ ∀ h ∈ l.handlers, h.cancelled = false) := by
  unfold invPurge
  simp [List.all_eq_true]

theorem invPurge_purge {l : TriggerHandlerList} (h : invPurge l = true) :
    invPurge (purge l) = true := by
  unfold purge
  by_cases hp : l.needsPurge = true
  · simp only [hp, if_true]
    refine (invPurge_iff _).2 (Or.inr ?_)
    intro a ha
    have := (List.mem_filter.1 ha).2
    simpa using this
  · simp only [Bool.not_eq_true] at hp
    simp only [hp]
    simpa using h

theorem purge_all_active {l : TriggerHandlerList} (h : invPurge l = true) :
    (purge l).handlers.all (fun x => !x.cancelled) = true := by
  unfold purge
  by_cases hp : l.needsPurge = true
  · simp only [hp, if_true]
    rw [List.all_eq_true]
    intro a ha
    exact (List.mem_filter.1 ha).2
  · simp only [Bool.not_eq_true] at hp
    simp only [hp]
    rcases (invPurge_iff l).1 h with hx | hx
    · rw [hp] at hx; cases hx
    · rw [List.all_eq_true]
      intro a ha
      simp [hx a (by simpa using ha)]

theorem invPurge_updatePriorities {l : TriggerHandlerList}
    (h : invPurge l = true) : invPurge (updatePriorities l) = true := by
  unfold updatePriorities
  by_cases hb : l.needsPriorityUpdate = true
  · simp only [hb, if_true]
    refine (invPurge_iff _).2 ?_
    rcases (invPurge_iff _).1 (invPurge_purge h) with hx | hx
    · exact Or.inl hx
    · refine Or.inr ?_
      intro a ha
      exact hx a ((sortHandlers_perm _).mem_iff.1 ha)
  · simp only [Bool.not_eq_true] at hb
    simp only [hb]
    simpa using h

theorem updatePriorities_all_active {l : TriggerHandlerList}
    (h : invPurge l = true) (hb : l.needsPriorityUpdate = true) :
    (updatePriorities l).handlers.all (fun x => !x.cancelled) = true := by
  unfold updatePriorities
  simp only [hb, if_true]
  rw [List.all_eq_true]
  intro a ha
  have hm := (sortHandlers_perm _).mem_iff.1 ha
  exact (List.all_eq_true.1 (purge_all_active h)) a hm

theorem invPurge_passState {l1 : TriggerHandlerList} (h : invPurge l1 = true) :
    invPurge
      { l1 with
        handlers := l1.handlers.map passUpdate,
        needsPurge := l1.needsPurge
          || l1.handlers.any (fun x => !x.cancelled && x.once) } = true := by
  refine (invPurge_iff _).2 ?_
  by_cases hnp : (l1.needsPurge || l1.handlers.any (fun x => !x.cancelled && x.once)) = true
  · exact Or.inl hnp
  · simp only [Bool.or_eq_true, not_or] at hnp
    rcases hnp with ⟨hnp1, hnp2⟩
    refine Or.inr ?_
    intro a ha
    rcases List.mem_map.1 ha with ⟨g, hg, rfl⟩
    rcases (invPurge_iff l1).1 h with hx | hx
    · exact absurd hx hnp1
    · have hgc := hx g hg
      have hgo : g.once = false := by
        by_contra hgo
        simp only [Bool.not_eq_false] at hgo
        exact hnp2 (List.any_eq_true.2 ⟨g, hg, by simp [hgc, hgo]⟩)
      unfold passUpdate
      simp [hgc, hgo]

theorem invPurge_listExecute {l : TriggerHandlerList} (args : List Int)
    (h : invPurge l = true) : invPurge (listExecute l args).1 = true := by
  rw [listExecute_fst]
  exact invPurge_passState (invPurge_updatePriorities h)

theorem invPurge_listPoll {l : TriggerHandlerList} (args : List Int)
    (h : invPurge l = true) : invPurge (listPoll l args).1 = true := by
  rw [listPoll_fst]
  exact invPurge_purge (invPurge_listExecute args h)

theorem listPoll_all_active {l : TriggerHandlerList} (args : List Int)
    (h : invPurge l = true) :
    (listPoll l args).1.handlers.all (fun x => !x.cancelled) = true := by
  rw [listPoll_fst]
  exact purge_all_active (invPurge_listExecute args h)

theorem invPurge_addHandler {l : TriggerHandlerList} (b : List Int)
    (h : invPurge l = true) : invPurge (addHandler l b).1 = true := by
  refine (invPurge_iff _).2 ?_
  rcases (invPurge_iff l).1 h with hx | hx
  · refine Or.inl ?_
    by_cases hu : l.usesPriorities = true
    · simp [addHandler, queuePriorityUpdate, hu, hx]
    · simp only [Bool.not_eq_true] at hu
      simp [addHandler, queuePriorityUpdate, hu, hx]
  · refine Or.inr ?_
    intro a ha
    have ham : a ∈ l.handlers ++ [⟨l.nextId, b, false, 0, false⟩] := by
      by_cases hu : l.usesPriorities = true
      · simpa [addHandler, queuePriorityUpdate, hu] using ha
      · simp only [Bool.not_eq_true] at hu
        simpa [addHandler, queuePriorityUpdate, hu] using ha
    rcases List.mem_append.1 ham with ha2 | ha2
    · exact hx a ha2
    · have : a = ⟨l.nextId, b, false, 0, false⟩ := by simpa using ha2
      rw [this]

theorem invPurge_cancelId (l : TriggerHandlerList) (i : Nat) :
    invPurge (cancelId l i) = true := by
  refine (invPurge_iff _).2 (Or.inl rfl)

theorem invPurge_setPriorityId (l : TriggerHandlerList) (i : Nat) (p : Int)
    (h : invPurge l = true) : invPurge (setPriorityId l i p) = true := by
  refine (invPurge_iff _).2 ?_
  rcases (invPurge_iff l).1 h with hx | hx
  · exact Or.inl hx
  · refine Or.inr ?_
    intro a ha
    rcases List.mem_map.1 ha with ⟨g, hg, rfl⟩
    by_cases hgi : g.id = i
    · simp [hgi, hx g hg]
    · simp [hgi, hx g hg]

theorem invPurge_setOnceId (l : TriggerHandlerList) (i : Nat) (b : Bool)
    (h : invPurge l = true) : invPurge (setOnceId l i b) = true := by
  refine (invPurge_iff _).2 ?_
  rcases (invPurge_iff l).1 h with hx | hx
  · exact Or.inl hx
  · refine Or.inr ?_
    intro a ha
    rcases List.mem_map.1 ha with ⟨g, hg, rfl⟩
    by_cases hgi : g.id = i
    · simp [hgi, hx g hg]
    · simp [hgi, hx g hg]

theorem invPurge_listClear (l : TriggerHandlerList) :
    invPurge (listClear l).1 = true := by
  refine (invPurge_iff _).2 ?_
  by_cases hnp : (l.needsPurge || !l.handlers.isEmpty) = true
  · exact Or.inl hnp
  · simp only [Bool.or_eq_true, not_or, Bool.not_eq_true, Bool.not_eq_false] at hnp
    refine Or.inr ?_
    intro a ha
    rcases List.mem_map.1 ha with ⟨g, hg, rfl⟩
    have he : l.handlers.isEmpty = true := by simpa using hnp.2
    rw [List.isEmpty_iff] at he
    rw [he] at hg
    cases hg

/-! ### The ordering invariant -/

theorem sortedInts_prioritiesOf_iff (hs : List TriggerHandler) :
    sortedInts (prioritiesOf hs) = true ↔
      hs.Pairwise (fun a b => a.priority ≤ b.priority) := by
  rw [sortedInts_iff]
  unfold prioritiesOf
  exact List.pairwise_map

theorem orderInv_iff (l : TriggerHandlerList) :
    orderInv l = true ↔
      ((l.usesPriorities = true ∨ ∀ h ∈ l.handlers, h.priority = 0) ∧
       (l.needsPriorityUpdate = true
         ∨ l.handlers.Pairwise (fun a b => a.priority ≤ b.priority))) := by
  unfold orderInv
  rw [Bool.and_eq_true, Bool.or_eq_true, Bool.or_eq_true,
    sortedInts_prioritiesOf_iff]
  simp [List.all_eq_true]

theorem pairwise_of_allZero {hs : List TriggerHandler}
    (h0 : ∀ h ∈ hs, h.priority = 0) :
    hs.Pairwise (fun a b => a.priority ≤ b.priority) := by
  induction hs with
  | nil => simp
  | cons a t ih =>
    refine List.pairwise_cons.2 ⟨?_, ih (fun h hm => h0 h (by simp [hm]))⟩
    intro b hb
    rw [h0 a (by simp), h0 b (by simp [hb])]

theorem pairwise_priority_map {hs : List TriggerHandler}
    {f : TriggerHandler → TriggerHandler}
    (hf : ∀ h, (f h).priority = h.priority)
    (h : hs.Pairwise (fun a b => a.priority ≤ b.priority)) :
    (hs.map f).Pairwise (fun a b => a.priority ≤ b.priority) := by
  rw [List.pairwise_map]
  refine h.imp ?_
  intro a b hab
  rw [hf a, hf b]
  exact hab

theorem allZero_priority_map {hs : List TriggerHandler}
    {f : TriggerHandler → TriggerHandler}
    (hf : ∀ h, (f h).priority = h.priority)
    (h0 : ∀ h ∈ hs, h.priority = 0) :
    ∀ h ∈ hs.map f, h.priority = 0 := by
  intro a ha
  rcases List.mem_map.1 ha with ⟨g, hg, rfl⟩
  rw [hf g]
  exact h0 g hg

theorem orderInv_purge {l : TriggerHandlerList} (h : orderInv l = true) :
    orderInv (purge l) = true := by
  rcases (orderInv_iff l).1 h with ⟨h1, h2⟩
  refine (orderInv_iff _).2 ?_
  unfold purge
  by_cases hp : l.needsPurge = true
  · simp only [hp, if_true]
    constructor
    · rcases h1 with h1 | h1
      · exact Or.inl h1
      · exact Or.inr fun a ha => h1 a (List.mem_filter.1 ha).1
    · rcases h2 with h2 | h2
      · exact Or.inl h2
      · exact Or.inr (h2.sublist (List.filter_sublist _))
  · simp only [Bool.not_eq_true] at hp
    simp only [hp]
    exact ⟨h1, h2⟩

theorem orderInv_updatePriorities {l : TriggerHandlerList}
    (h : orderInv l = true) : orderInv (updatePriorities l) = true := by
  unfold updatePriorities
  by_cases hb : l.needsPriorityUpdate = true
  · simp only [hb, if_true]
    refine (orderInv_iff _).2 ?_
    constructor
    · rcases ((orderInv_iff _).1 (orderInv_purge h)).1 with h1 | h1
      · exact Or.inl h1
      · refine Or.inr ?_
        intro a ha
        exact h1 a ((sortHandlers_perm _).mem_iff.1 ha)
    · exact Or.inr (sortHandlers_pairwise _)
  · simp only [Bool.not_eq_true] at hb
    simp only [hb]
    simpa using h

theorem updatePriorities_pairwise {l : TriggerHandlerList}
    (h : orderInv l = true) :
    (updatePriorities l).handlers.Pairwise
      (fun a b => a.priority ≤ b.priority) := by
  unfold updatePriorities
  by_cases hb : l.needsPriorityUpdate = true
  · simp only [hb, if_true]
    exact sortHandlers_pairwise _
  · simp only [Bool.not_eq_true] at hb
    simp only [hb]
    rcases ((orderInv_iff l).1 h).2 with h2 | h2
    · rw [hb] at h2; cases h2
    · simpa using h2

theorem executeTrace_pairwise {l : TriggerHandlerList} (args : List Int)
    (h : orderInv l = true) :
    (listExecute l args).2.Pairwise
      (fun e1 e2 => e1.1.priority ≤ e2.1.priority) := by
  rw [listExecute_snd, runPass_trace, List.pairwise_map]
  exact (updatePriorities_pairwise h).sublist (List.filter_sublist _)

theorem orderInv_passState {l1 : TriggerHandlerList} (h : orderInv l1 = true) :
    orderInv
      { l1 with
        handlers := l1.handlers.map passUpdate,
        needsPurge := l1.needsPurge
          || l1.handlers.any (fun x => !x.cancelled && x.once) } = true := by
  rcases (orderInv_iff l1).1 h with ⟨h1, h2⟩
  refine (orderInv_iff _).2 ?_
  constructor
  · rcases h1 with h1 | h1
    · exact Or.inl h1
    · exact Or.inr (allZero_priority_map passUpdate_priority h1)
  · rcases h2 with h2 | h2
    · exact Or.inl h2
    · exact Or.inr (pairwise_priority_map passUpdate_priority h2)

theorem orderInv_listExecute {l : TriggerHandlerList} (args : List Int)
    (h : orderInv l = true) : orderInv (listExecute l args).1 = true := by
  rw [listExecute_fst]
  exact orderInv_passState (orderInv_updatePriorities h)

theorem orderInv_listPoll {l : TriggerHandlerList} (args : List Int)
    (h : orderInv l = true) : orderInv (listPoll l args).1 = true := by
  rw [listPoll_fst]
  exact orderInv_purge (orderInv_listExecute args h)

theorem orderInv_addHandler {l : TriggerHandlerList} (b : List Int)
    (h : orderInv l = true) : orderInv (addHandler l b).1 = true := by
  rcases (orderInv_iff l).1 h with ⟨h1, h2⟩
  by_cases hu : l.usesPriorities = true
  · refine (orderInv_iff _).2 ?_
    constructor
    · refine Or.inl ?_
      simp [addHandler, queuePriorityUpdate, hu]
    · refine Or.inl ?_
      simp [addHandler, queuePriorityUpdate, hu]
  · simp only [Bool.not_eq_true] at hu
    have hz : ∀ a ∈ l.handlers, a.priority = 0 := by
      rcases h1 with h1 | h1
      · rw [hu] at h1; cases h1
      · exact h1
    have hz2 : ∀ a ∈ l.handlers ++ [(⟨l.nextId, b, false, 0, false⟩ : TriggerHandler)],
        a.priority = 0 := by
      intro a ha
      rcases List.mem_append.1 ha with ha | ha
      · exact hz a ha
      · have : a = (⟨l.nextId, b, false, 0, false⟩ : TriggerHandler) := by
          simpa using ha
        rw [this]
    refine (orderInv_iff _).2 ?_
    constructor
    · refine Or.inr ?_
      intro a ha
      refine hz2 a ?_
      simpa [addHandler, queuePriorityUpdate, hu] using ha
    · refine Or.inr ?_
      have hpw := pairwise_of_allZero hz2
      have hhandlers : (addHandler l b).1.handlers
          = l.handlers ++ [(⟨l.nextId, b, false, 0, false⟩ : TriggerHandler)] := by
        simp [addHandler, queuePriorityUpdate, hu]
      rw [hhandlers]
      exact hpw

theorem orderInv_cancelId (l : TriggerHandlerList) (i : Nat)
    (h : orderInv l = true) : orderInv (cancelId l i) = true := by
  rcases (orderInv_iff l).1 h with ⟨h1, h2⟩
  have hf : ∀ g : TriggerHandler,
      ((fun g => if g.id = i then { g with cancelled := true } else g) g).priority
        = g.priority := by
    intro g
    by_cases hgi : g.id = i
    · simp [hgi]
    · simp [hgi]
  refine (orderInv_iff _).2 ?_
  constructor
  · rcases h1 with h1 | h1
    · exact Or.inl h1
    · exact Or.inr (allZero_priority_map hf h1)
  · rcases h2 with h2 | h2
    · exact Or.inl h2
    · exact Or.inr (pairwise_priority_map hf h2)

theorem orderInv_setPriorityId (l : TriggerHandlerList) (i : Nat) (p : Int) :
    orderInv (setPriorityId l i p) = true := by
  refine (orderInv_iff _).2 ?_
  exact ⟨Or.inl rfl, Or.inl rfl⟩

theorem orderInv_setOnceId (l : TriggerHandlerList) (i : Nat) (b : Bool)
    (h : orderInv l = true) : orderInv (setOnceId l i b) = true := by
  rcases (orderInv_iff l).1 h with ⟨h1, h2⟩
  have hf : ∀ g : TriggerHandler,
      ((fun g => if g.id = i then { g with once := b } else g) g).priority
        = g.priority := by
    intro g
    by_cases hgi : g.id = i
    · simp [hgi]
    · simp [hgi]
  refine (orderInv_iff _).2 ?_
  constructor
  · rcases h1 with h1 | h1
    · exact Or.inl h1
    · exact Or.inr (allZero_priority_map hf h1)
  · rcases h2 with h2 | h2
    · exact Or.inl h2
    · exact Or.inr (pairwise_priority_map hf h2)

theorem orderInv_listClear (l : TriggerHandlerList) (h : orderInv l = true) :
    orderInv (listClear l).1 = true := by
  rcases (orderInv_iff l).1 h with ⟨h1, h2⟩
  have hf : ∀ g : TriggerHandler,
      ((fun g : TriggerHandler => { g with cancelled := true }) g).priority
        = g.priority :=
    fun g => rfl
  refine (orderInv_iff _).2 ?_
  constructor
  · rcases h1 with h1 | h1
    · exact Or.inl h1
    · exact Or.inr (allZero_priority_map hf h1)
  · rcases h2 with h2 | h2
    · exact Or.inl h2
    · exact Or.inr (pairwise_priority_map hf h2)

theorem orderInv_listModify (env : Nat → Int → Int) {l : TriggerHandlerList}
    (input : Int) (args : List Int) (h : orderInv l = true) :
    orderInv (listModify env l input args).1 = true := by
  rw [listModify_fst]
  exact orderInv_listExecute args h

/-! ### Remaining bridging lemmas -/

theorem setMap_same (m : Nat → Option TriggerHandlerList) (k : Nat)
    (v : Option TriggerHandlerList) : setMap m k v k = v := by
  simp [setMap]

theorem uniqueActiveOnce_oneActiveOnce {i : Nat} {hs : List TriggerHandler}
    (h : uniqueActiveOnce i hs = true) : OneActiveOnce i hs := by
  unfold uniqueActiveOnce at h
  rcases E : hs.filter (fun x => x.id == i) with _ | ⟨g, t⟩
  · rw [E] at h
    simp at h
  · rcases t with _ | ⟨g2, t2⟩
    · rw [E] at h
      simp only [Bool.and_eq_true, Bool.not_eq_true'] at h
      exact ⟨g, E, h.1, h.2⟩
    · rw [E] at h
      simp at h

theorem filter_active_eq_nil {hs : List TriggerHandler}
    (hall : ∀ h ∈ hs, h.cancelled = true) :
    hs.filter (fun h => !h.cancelled) = [] := by
  rw [List.filter_eq_nil_iff]
  intro a ha
  simp [hall a ha]

theorem updatePriorities_all_cancelled {l : TriggerHandlerList}
    (hall : ∀ h ∈ l.handlers, h.cancelled = true) :
    ∀ h ∈ (updatePriorities l).handlers, h.cancelled = true :=
  fun h hm => hall h (mem_updatePriorities hm)

/-! ## The claims -/

/-- C1 (code bug): the spec claims `modifyChain` folds left-to-right — two
transform handlers each doubling their input turn `modifyChain(10, K)` into
40 — and the code's own documentation agrees ("applies all transformative
handlers … in a chain (like array.reduce)").  But line 197 reads
`result = handler.modify(input, args)`, handing every handler the ORIGINAL
`input` instead of the running `result`, so the call returns the LAST
handler's value on the unmodified input: 20, not 40.  This theorem evaluates
the embedded code at that failing input. -/
theorem claim_C1_modify_not_chained :
    (modifyTrigger doubleEnv twoDoublersState 10 0 []).2 = 20
      ∧ (20 : Int) ≠ 40 := by
  exact ⟨by decide, by decide⟩

/-- C2 (code bug): the spec claims `clearTrigger(key)` is total — it clears
the lists when present, is no error when absent, and removes both map
entries.  In the code `TriggerHandlerList.clear` ends with
`this.#handlers.clear()`, which throws a `TypeError` (JavaScript arrays have
no `clear` method), and for an absent key `getHandlerList(handlers, trigger,
false)` returns `null`, so `null.clear()` throws as well.  The exception
propagates before any `Map.delete` runs: the broadcast entry survives and the
transform list is never touched.  Evaluated on a key holding one registered
handler and on an absent key. -/
theorem claim_C2_clearTrigger_throws :
    (clearTrigger oneBroadcastState 0).2 = true
      ∧ ((clearTrigger oneBroadcastState 0).1.handlers 0).isSome = true
      ∧ (clearTrigger emptyTriggerState 1).2 = true := by
  exact ⟨rfl, rfl, rfl⟩

/-- C3, amended: dispatch order follows ascending priority — in every state
satisfying the ordering invariant `orderInv` (which every operation
preserves, first conjunct), a handler invoked with strictly smaller priority
comes strictly earlier in the dispatch trace (second conjunct).  Ties are
broken by the order the handlers occupied before the sort (the sort is
stable: restricted to any one priority, it reorders nothing — third
conjunct); that equals registration order as long as no earlier sort ran
while the priorities differed, but not in general (see the counterexample).
The concrete scenario holds: h1 priority 5 returning "A", h2 priority 1
returning "B", h3 priority 5 returning "C" gives `pollBroadcast` =
["B","A","C"] (fourth conjunct). -/
theorem claim_C3_priority_order :
    (∀ (op : ListOp) (l : TriggerHandlerList),
        orderInv l = true → orderInv (applyListOp op l) = true)
    ∧ (∀ (l : TriggerHandlerList) (args : List Int), orderInv l = true →
        ∀ k1 k2 : Fin (listExecute l args).2.length,
          ((listExecute l args).2.get k1).1.priority
              < ((listExecute l args).2.get k2).1.priority
            → (k1 : Nat) < (k2 : Nat))
    ∧ (∀ (hs : List TriggerHandler) (q : Int),
        (sortHandlers hs).filter (fun h => h.priority == q)
          = hs.filter (fun h => h.priority == q))
    ∧ ((pollTrigger priorityScenarioState 0 []).2.map (fun e => abcEnv e.1.id))
        = ["B", "A", "C"] := by
  refine ⟨?_, ?_, sortHandlers_filter, by decide⟩
  · intro op l h
    cases op with
    | addOp b => exact orderInv_addHandler b h
    | cancelOp i => exact orderInv_cancelId l i h
    | setPriorityOp i p => exact orderInv_setPriorityId l i p
    | setOnceOp i b => exact orderInv_setOnceId l i b h
    | clearOp => exact orderInv_listClear l h
    | execOp a => exact orderInv_listExecute a h
    | pollOp a => exact orderInv_listPoll a h
    | modOp v a => exact orderInv_listModify (fun _ x => x) v a h
  · intro l args h k1 k2 hlt
    have hpw := executeTrace_pairwise args h
    have hget := List.pairwise_iff_get.1 hpw
    by_contra hk
    push_neg at hk
    rcases lt_or_eq_of_le hk with hk2 | hk2
    · have hle := hget k2 k1 hk2
      exact absurd hlt (not_lt_of_le hle)
    · have : k1 = k2 := Fin.ext hk2.symm
      rw [this] at hlt
      exact lt_irrefl _ hlt

/-- C3 counterexample (to the claim as stated): "equal-priority handlers run
in registration order" fails once priorities change between dispatches.
Handlers with ids 0 then 1 (registration order) are given priorities 2 and 1;
a dispatch sorts the list to [1, 0]; handler 0 is then re-prioritized to 1 so
both have priority 1.  The next dispatch invokes [1, 0] — not the
registration order [0, 1] — because the stable sort preserves the PREVIOUS
order, not registration order. -/
theorem claim_C3_counterexample :
    ((listExecute retieredList []).2.map (fun e => e.1.id)) = [1, 0]
      ∧ findPriority retieredList 0 = findPriority retieredList 1
      ∧ ((listExecute retieredList []).2.map (fun e => e.1.id)) ≠ [0, 1] := by
  exact ⟨by decide, by decide, by decide⟩

/-- C3 witness: the amended theorem applied to `twoTierList` (priorities 2
and 1 on ids 0 and 1): its invariant holds, the lower-priority invocation
(index 0, priority 1) precedes the higher one (index 1, priority 2), and the
invariant is preserved by a dispatch. -/
theorem claim_C3_witness :
    orderInv twoTierList = true
      ∧ (0 : Nat) < 1
      ∧ orderInv (applyListOp (ListOp.execOp []) twoTierList) = true :=
  ⟨by decide,
   claim_C3_priority_order.2.1 twoTierList [] (by decide)
     ⟨0, by decide⟩ ⟨1, by decide⟩ (by decide),
   claim_C3_priority_order.1 (ListOp.execOp []) twoTierList (by decide)⟩

/-- C4: a handler with the once-flag set fires exactly once — from any list
state in which it is the unique handler with its id, active and once-flagged,
ANY nonempty sequence of dispatches (execute, poll or modify, in any
combination) invokes it exactly one time: it is cancelled immediately before
its single invocation and nothing ever un-cancels it. -/
theorem claim_C4_once_fires_exactly_once (l : TriggerHandlerList) (i : Nat)
    (ds : List Dispatch) (h1 : uniqueActiveOnce i l.handlers = true)
    (hne : ds ≠ []) :
    countInv i (runDispatches l ds).2 = 1 := by
  have hp := uniqueActiveOnce_oneActiveOnce h1
  cases ds with
  | nil => exact absurd rfl hne
  | cons d ds =>
    have hstep := runDispatch_oneActiveOnce d hp
    have hrest := runDispatches_noActive ds hstep.2
    show countInv i ((runDispatch l d).2 ++ (runDispatches (runDispatch l d).1 ds).2) = 1
    rw [countInv_append, hstep.1, hrest.1]

/-- C4 witness: one registered once-flagged handler, dispatched by an
execute, a poll and a modify: exactly one invocation. -/
theorem claim_C4_witness :
    uniqueActiveOnce 0 onceOneList.handlers = true
      ∧ countInv 0 (runDispatches onceOneList
          [Dispatch.dExec [], Dispatch.dPoll [], Dispatch.dModify 5 []]).2 = 1 :=
  ⟨by decide,
   claim_C4_once_fires_exactly_once onceOneList 0
     [Dispatch.dExec [], Dispatch.dPoll [], Dispatch.dModify 5 []]
     (by decide) (by decide)⟩

/-- C5: a cancelled handler is never invoked again, even while still
physically present in the sequence.  First conjunct: after `cancel()` on the
handler with id `i`, no sequence of dispatches on its list ever invokes `i`.
Second conjunct: the same at the dispatcher level — after cancelling, an
`executeBroadcast` or `pollBroadcast` on the key never invokes `i`. -/
theorem claim_C5_cancelled_never_invoked :
    (∀ (l : TriggerHandlerList) (i : Nat) (ds : List Dispatch),
        countInv i (runDispatches (cancelId l i) ds).2 = 0)
    ∧ (∀ (s : TriggerState) (k i : Nat) (args : List Int),
        countInv i (executeTrigger (cancelBroadcast s k i) k args).2 = 0
          ∧ countInv i (pollTrigger (cancelBroadcast s k i) k args).2 = 0) := by
  constructor
  · intro l i ds
    exact (runDispatches_noActive ds (noActive_cancelId l i)).1
  · intro s k i args
    cases hk : s.handlers k with
    | none =>
      have hbc : cancelBroadcast s k i = s := by
        unfold cancelBroadcast
        rw [hk]
      rw [hbc]
      constructor
      · unfold executeTrigger
        rw [hk]
        rfl
      · unfold pollTrigger
        rw [hk]
        rfl
    | some l =>
      have hbc : (cancelBroadcast s k i).handlers k = some (cancelId l i) := by
        unfold cancelBroadcast
        rw [hk]
        exact setMap_same _ _ _
      have hna := noActive_cancelId l i
      constructor
      · unfold executeTrigger
        rw [hbc]
        exact (runDispatch_noActive (Dispatch.dExec args) hna).1
      · unfold pollTrigger
        rw [hbc]
        exact (runDispatch_noActive (Dispatch.dPoll args) hna).1

/-- C6: dispatching a key with no registered handlers is never an error.
With no list for the key: execute is a no-op, poll returns the empty
sequence, modify returns its input unchanged; and when a list exists but has
zero active handlers, modify still returns its input and poll still returns
the empty sequence. -/
theorem claim_C6_empty_dispatch :
    (∀ (s : TriggerState) (k : Nat) (args : List Int),
        s.handlers k = none →
          executeTrigger s k args = (s, []) ∧ pollTrigger s k args = (s, []))
    ∧ (∀ (env : Nat → Int → Int) (s : TriggerState) (v : Int) (k : Nat)
        (args : List Int), s.modifiers k = none →
          modifyTrigger env s v k args = (s, v))
    ∧ (∀ (env : Nat → Int → Int) (s : TriggerState) (v : Int) (k : Nat)
        (args : List Int) (l : TriggerHandlerList), s.modifiers k = some l →
          (∀ h ∈ l.handlers, h.cancelled = true) →
          (modifyTrigger env s v k args).2 = v)
    ∧ (∀ (s : TriggerState) (k : Nat) (args : List Int)
        (l : TriggerHandlerList), s.handlers k = some l →
          (∀ h ∈ l.handlers, h.cancelled = true) →
          (pollTrigger s k args).2 = []) := by
  refine ⟨?_, ?_, ?_, ?_⟩
  · intro s k args hk
    constructor
    · unfold executeTrigger
      rw [hk]
    · unfold pollTrigger
      rw [hk]
  · intro env s v k args hk
    unfold modifyTrigger
    rw [hk]
  · intro env s v k args l hk hall
    unfold modifyTrigger
    rw [hk]
    show (listModify env l v args).2.2 = v
    rw [listModify_value,
      filter_active_eq_nil (updatePriorities_all_cancelled hall)]
    rfl
  · intro s k args l hk hall
    unfold pollTrigger
    rw [hk]
    show (listPoll l args).2 = []
    rw [listPoll_snd, runPass_trace,
      filter_active_eq_nil (updatePriorities_all_cancelled hall)]
    rfl

/-- C6 witness: the theorem applied to an absent key and to key 0 of a state
whose broadcast and transform handlers are all cancelled. -/
theorem claim_C6_witness :
    emptyTriggerState.handlers 5 = none
      ∧ executeTrigger emptyTriggerState 5 [] = (emptyTriggerState, [])
      ∧ (modifyTrigger doubleEnv cancelledBothState 7 0 []).2 = 7
      ∧ (pollTrigger cancelledBothState 0 []).2 = [] :=
  ⟨rfl,
   (claim_C6_empty_dispatch.1 emptyTriggerState 5 [] rfl).1,
   claim_C6_empty_dispatch.2.2.1 doubleEnv cancelledBothState 7 0 []
     cancelledOneList rfl (by decide),
   claim_C6_empty_dispatch.2.2.2 cancelledBothState 0 []
     cancelledOneList rfl (by decide)⟩

/-- C7, amended: `poll` unconditionally CALLS the resort routine, but that
routine purges and stable-sorts only when the needs-priority-update bit is
set (first conjunct; `specResort` is the purge-then-sort the spec describes)
and leaves the list untouched when the bit is clear (second conjunct).  The
"purges again afterward" half of the claim holds: from any state satisfying
the purge invariant, after `poll` the sequence holds no cancelled handler —
handlers cancelled during the pass (e.g. once-handlers) are physically
removed (third conjunct). -/
theorem claim_C7_poll_maintenance :
    (∀ l : TriggerHandlerList, l.needsPriorityUpdate = true →
        updatePriorities l = specResort l)
    ∧ (∀ l : TriggerHandlerList, l.needsPriorityUpdate = false →
        updatePriorities l = l)
    ∧ (∀ (l : TriggerHandlerList) (args : List Int), invPurge l = true →
        (listPoll l args).1.handlers.all (fun h => !h.cancelled) = true) := by
  refine ⟨?_, ?_, ?_⟩
  · intro l hb
    unfold updatePriorities specResort
    simp [hb]
  · intro l hb
    unfold updatePriorities
    simp [hb]
  · intro l args h
    exact listPoll_all_active args h

/-- C7 counterexample (to the claim as stated): `poll` does NOT force a purge
and sort before traversing when the needs-priority-update bit is clear.  In
the reachable state `cancelledOneList` (one handler registered then
cancelled: needs-purge set, needs-priority-update clear), poll's pre-phase
`updatePriorities` — claimed to equal the forced purge+sort `specResort` —
leaves the cancelled handler in the traversal sequence. -/
theorem claim_C7_counterexample :
    updatePriorities cancelledOneList ≠ specResort cancelledOneList
      ∧ (updatePriorities cancelledOneList).handlers.any
          (fun h => h.cancelled) = true
      ∧ cancelledOneList.needsPriorityUpdate = false := by
  exact ⟨by decide, by decide, rfl⟩

/-- C7 witness: the amended theorem applied to a once-handler list (the
handler cancelled during the pass is gone after poll) and to concrete states
on both sides of the needs-priority-update bit. -/
theorem claim_C7_witness :
    invPurge onceOneList = true
      ∧ (listPoll onceOneList []).1.handlers.all (fun h => !h.cancelled) = true
      ∧ onceOneList.needsPriorityUpdate = false
      ∧ updatePriorities onceOneList = onceOneList
      ∧ (setPriorityId onceOneList 0 0).needsPriorityUpdate = true
      ∧ updatePriorities (setPriorityId onceOneList 0 0)
          = specResort (setPriorityId onceOneList 0 0) :=
  ⟨by decide,
   claim_C7_poll_maintenance.2.2 onceOneList [] (by decide),
   rfl,
   claim_C7_poll_maintenance.2.1 onceOneList rfl,
   rfl,
   claim_C7_poll_maintenance.1 (setPriorityId onceOneList 0 0) rfl⟩

/-- C8: the implicit purge invariant — whenever a list's needs-purge bit is
clear its sequence holds no cancelled handler (first conjunct spells the
`invPurge` flag out), and every operation (register, cancel, set-priority,
set-once, clear, execute, poll, modify) preserves it: every cancellation
sets needs-purge, and the purge clears the bit only after filtering the
cancelled handlers out (second conjunct). -/
theorem claim_C8_purge_invariant :
    (∀ l : TriggerHandlerList, invPurge l = true ↔
        (l.needsPurge = false → ∀ h ∈ l.handlers, h.cancelled = false))
    ∧ (∀ (op : ListOp) (l : TriggerHandlerList),
        invPurge l = true → invPurge (applyListOp op l) = true) := by
  constructor
  · intro l
    rw [invPurge_iff]
    constructor
    · intro h hnp
      rcases h with h | h
      · rw [hnp] at h; cases h
      · exact h
    · intro h
      by_cases hnp : l.needsPurge = true
      · exact Or.inl hnp
      · simp only [Bool.not_eq_true] at hnp
        exact Or.inr (h hnp)
  · intro op l h
    cases op with
    | addOp b => exact invPurge_addHandler b h
    | cancelOp i => exact invPurge_cancelId l i
    | setPriorityOp i p => exact invPurge_setPriorityId l i p h
    | setOnceOp i b => exact invPurge_setOnceId l i b h
    | clearOp => exact invPurge_listClear l
    | execOp a => exact invPurge_listExecute a h
    | pollOp a => exact invPurge_listPoll a h
    | modOp v a =>
      show invPurge (listModify (fun _ x => x) l v a).1 = true
      rw [listModify_fst]
      exact invPurge_listExecute a h

/-- C8 witness: the invariant holds for a once-handler list and is preserved
by a poll (which cancels the handler mid-pass and purges it afterwards). -/
theorem claim_C8_witness :
    invPurge onceOneList = true
      ∧ invPurge (applyListOp (ListOp.pollOp []) onceOneList) = true :=
  ⟨by decide,
   claim_C8_purge_invariant.2 (ListOp.pollOp []) onceOneList (by decide)⟩

/-- C9 (code bug): the claim says registering with the callback omitted
yields a do-nothing default so that dispatch does not throw.  Line 49 reads
`#callback = doNothing()` — it CALLS `doNothing`, so the field initializer
is the call's return value `undefined`, not the function; an omitted
`callback` argument defaults to that field (line 53), and the dispatch-time
call `this.#callback(...)` throws a `TypeError` (first conjunct).  The
second conjunct shows the intended default: had the field held the
`doNothing` function itself, invocation would return `undefined` without
throwing. -/
theorem claim_C9_default_callback_throws :
    invokeConstructed none = Except.error ()
      ∧ jsCall doNothing = Except.ok CallbackValue.undefVal := by
  exact ⟨rfl, rfl⟩

/-- C10: calling the `Trigger` object itself as a function is the same
operation as `Trigger.execute`: for every state, key and argument list it
produces the same state and invokes the same callbacks in the same order
(the wrapper body, lines 309–311, just forwards to `Trigger.execute`). -/
theorem claim_C10_trigger_callable (s : TriggerState) (k : Nat)
    (args : List Int) :
    triggerAsFunction s k args = executeTrigger s k args := rfl

end TriggerSvelte
